import Mathlib

/-!
Verification of the thumbnail composition engine of the `edit-game`
repository (`jugger_video_manipulation/build_miniature.py` and
`miniatures/models.py`), against its natural-language specification.

The embedding is shallow: images are modelled as a size together with a
total pixel map; the PIL primitives used by the source (`Image.new`,
`resize`, `crop`, `paste` with and without mask, `ImageDraw.rectangle`,
`split`) are modelled pixel-wise following Pillow's documented semantics.
Python floats are modelled as rationals, Python `int()` truncation as
`Int.floor` (the two agree on the non-negative values that reach every
`int()` call below, since validation precedes the arithmetic).
Pixel channels are natural numbers; 8-bit well-formedness (every channel
at most 255) is an explicit hypothesis where a theorem needs it.

Two PIL primitives whose pixel content is never relied on by any theorem
are abstracted: `Image.rotate` (only pasted into a fixed-size canvas, so
neither its content nor its expanded size influences any stated property)
and `ImageFilter.GaussianBlur` (dimension-preserving; the blurred mask
content is never inspected).
-/

/-- An RGBA pixel; channels are 8-bit in PIL, modelled as `Nat`. -/
structure RGBA where
  r : Nat
  g : Nat
  b : Nat
  a : Nat
deriving DecidableEq, Repr

/-- A raster image: a width, a height and a total pixel map (PIL `Image`
in mode RGBA).  Consumers only inspect `pix i j` for `i < width`,
`j < height`. -/
structure Img where
  width : Nat
  height : Nat
  pix : Nat → Nat → RGBA

/-- A single-band (mode "L") image, as produced by `split()` and used as
a paste mask. -/
structure GImg where
  width : Nat
  height : Nat
  pix : Nat → Nat → Nat

/-- PIL `Image.new("RGBA", (w, h), c)`: constant image. -/
def mkImg (w h : Nat) (c : RGBA) : Img :=
  ⟨w, h, fun _ _ => c⟩

/-- PIL `Image.new("L", (w, h), v)`: constant single-band image. -/
def mkGImg (w h : Nat) (v : Nat) : GImg :=
  ⟨w, h, fun _ _ => v⟩

/-- PIL `Image.resize((w, h))`.  Pillow returns a copy of the image
unchanged when the requested size equals the current size (the fast path
in `Image.resize`); at any other size the result has exactly the
requested dimensions and resampled content, modelled here by
nearest-neighbour sampling (no theorem below depends on the resampled
content of a non-uniform image). -/
def resize (im : Img) (w h : Nat) : Img :=
  if im.width = w ∧ im.height = h then im
  else ⟨w, h, fun i j => im.pix (i * im.width / w) (j * im.height / h)⟩

/-- PIL `Image.crop((l, t, r, b))` with a non-negative box: the result
has size `(r - l, b - t)`; pixels sourced outside the image are filled
with zeros. -/
def crop (im : Img) (l t r b : Nat) : Img :=
  ⟨r - l, b - t, fun i j =>
    if l + i < im.width ∧ t + j < im.height then im.pix (l + i) (t + j)
    else ⟨0, 0, 0, 0⟩⟩

/-- Pillow's exact `MULDIV255` rounding helper: `round (x * y / 255)`
computed as in `ImagingPaste` (`t = x*y + 128; ((t >> 8) + t) >> 8`). -/
def muldiv255 (x y : Nat) : Nat :=
  ((x * y + 128) / 256 + (x * y + 128)) / 256

/-- Pillow's per-channel blend used by `paste` with a mask of value `m`:
`out = in1 * (255 - m)/255 + in2 * m/255` with `MULDIV255` rounding. -/
def blendChan (m d s : Nat) : Nat :=
  muldiv255 d (255 - m) + muldiv255 s m

/-- The mask-`m` blend of two RGBA pixels, channel by channel. -/
def blendRGBA (m : Nat) (d s : RGBA) : RGBA :=
  ⟨blendChan m d.r s.r, blendChan m d.g s.g, blendChan m d.b s.b,
    blendChan m d.a s.a⟩

/-- PIL `dest.paste(src, (px, py))` without a mask: the source replaces
the destination on the translated source rectangle (clipped to the
destination); positions may be negative. -/
def pasteImg (dest src : Img) (px py : Int) : Img :=
  ⟨dest.width, dest.height, fun i j =>
    let si : Int := (i : Int) - px
    let sj : Int := (j : Int) - py
    if 0 ≤ si ∧ si < (src.width : Int) ∧ 0 ≤ sj ∧ sj < (src.height : Int) then
      src.pix si.toNat sj.toNat
    else dest.pix i j⟩

/-- PIL `dest.paste(src, (px, py), mask)` where the mask (sharing the
source's geometry) is a single band: each channel of the destination is
blended with the source under the mask value. -/
def pasteMask (dest src : Img) (px py : Int) (mask : GImg) : Img :=
  ⟨dest.width, dest.height, fun i j =>
    let si : Int := (i : Int) - px
    let sj : Int := (j : Int) - py
    if 0 ≤ si ∧ si < (src.width : Int) ∧ 0 ≤ sj ∧ sj < (src.height : Int) then
      blendRGBA (mask.pix si.toNat sj.toNat) (dest.pix i j)
        (src.pix si.toNat sj.toNat)
    else dest.pix i j⟩

/-- PIL `dest.paste(src, (px, py))` on single-band images, no mask. -/
def pasteG (dest src : GImg) (px py : Int) : GImg :=
  ⟨dest.width, dest.height, fun i j =>
    let si : Int := (i : Int) - px
    let sj : Int := (j : Int) - py
    if 0 ≤ si ∧ si < (src.width : Int) ∧ 0 ≤ sj ∧ sj < (src.height : Int) then
      src.pix si.toNat sj.toNat
    else dest.pix i j⟩

/-- PIL `dest.paste(src, (px, py), mask)` on single-band images. -/
def pasteGMask (dest src : GImg) (px py : Int) (mask : GImg) : GImg :=
  ⟨dest.width, dest.height, fun i j =>
    let si : Int := (i : Int) - px
    let sj : Int := (j : Int) - py
    if 0 ≤ si ∧ si < (src.width : Int) ∧ 0 ≤ sj ∧ sj < (src.height : Int) then
      blendChan (mask.pix si.toNat sj.toNat) (dest.pix i j)
        (src.pix si.toNat sj.toNat)
    else dest.pix i j⟩

/-- PIL `image.split()[-1]` on an RGBA image: the alpha band. -/
def alphaBand (im : Img) : GImg :=
  ⟨im.width, im.height, fun i j => (im.pix i j).a⟩

/-- PIL `ImageDraw.rectangle([(x0, y0), (x1, y1)], fill c)`: fills the
rectangle, both corner coordinates included (Pillow's rectangle is
inclusive of its lower-right corner). -/
def drawRect (im : Img) (x0 y0 x1 y1 : Int) (c : RGBA) : Img :=
  ⟨im.width, im.height, fun i j =>
    if x0 ≤ (i : Int) ∧ (i : Int) ≤ x1 ∧ y0 ≤ (j : Int) ∧ (j : Int) ≤ y1 then c
    else im.pix i j⟩

/-- Abstraction of PIL `ImageFilter.GaussianBlur` applied to a mask: the
blur preserves the image dimensions; its pixel content is never
inspected by any theorem in this file, so it is left as the identity on
content. -/
def gaussianBlur (m : GImg) (_radius : ℚ) : GImg :=
  m

/-- Abstraction of PIL `Image.rotate(angle, expand=True, BICUBIC)`: the
rotated panel is only ever pasted into a fixed 1920x1080 canvas, so
neither its content nor its expanded size influences any theorem; it is
left as the identity. -/
def rotateExpand (im : Img) (_angle : ℚ) : Img :=
  im

/-- Abstraction of PIL colour-name parsing (`fill="red"` etc.): a solid
colour; the resolved channel values are never inspected. -/
def namedColor (_s : String) : RGBA :=
  ⟨250, 250, 250, 255⟩

/-- Python `int()` applied to the non-negative arithmetic results in
`build_miniature.py`: truncation toward zero, which on non-negative
values coincides with the floor; the result is used as a pixel count. -/
def pyInt (q : ℚ) : Nat :=
  (Int.floor q).toNat

/-- The `Rescale` value type of `build_miniature.py` (lines 9-18): its
`__init__` stores the three parameters and performs no validation. -/
structure Rescale where
  x_offset : ℚ
  y_offset : ℚ
  zoom : ℚ
deriving DecidableEq, Repr

/-- Step 2 of `rescale_image` (line 200):
`image.resize((int(1920 * zoom), int(1080 * zoom)))`. -/
def zoomed_image (image : Img) (rescale : Rescale) : Img :=
  resize image (pyInt (1920 * rescale.zoom)) (pyInt (1080 * rescale.zoom))

/-- Line 202 of `rescale_image`:
`int(x_offset * (zoomed.size[0] + 600 - 1920))`. -/
def zoomed_x_offset (image : Img) (rescale : Rescale) : Nat :=
  pyInt (rescale.x_offset * (((zoomed_image image rescale).width : ℚ) + 600 - 1920))

/-- Line 203 of `rescale_image`:
`int(y_offset * (zoomed.size[1] - 1080))`. -/
def zoomed_y_offset (image : Img) (rescale : Rescale) : Nat :=
  pyInt (rescale.y_offset * (((zoomed_image image rescale).height : ℚ) - 1080))

/-- `rescale_image` of `build_miniature.py` (lines 180-212): validates
the rescale parameters (raising `ValueError`, modelled as `Except.error`)
and then crops a 1920x1080 window out of the zoomed image. -/
def rescale_image (image : Img) (rescale : Rescale) : Except String Img :=
  if rescale.zoom < 1 then Except.error "zoom must be >=1"
  else if rescale.x_offset < 0 ∨ rescale.y_offset < 0 ∨
      rescale.x_offset > 1 ∨ rescale.y_offset > 1 then
    Except.error "x_offset and y_offset must be between 0 and 1"
  else
    let zoomed := zoomed_image image rescale
    let zx := zoomed_x_offset image rescale
    let zy := zoomed_y_offset image rescale
    Except.ok (crop zoomed zx zy (1920 + zx) (1080 + zy))

theorem resize_width (im : Img) (w h : Nat) : (resize im w h).width = w := by
  unfold resize
  split
  · simp_all
  · rfl

theorem resize_height (im : Img) (w h : Nat) : (resize im w h).height = h := by
  unfold resize
  split
  · simp_all
  · rfl

theorem crop_width (im : Img) (l t r b : Nat) : (crop im l t r b).width = r - l :=
  rfl

theorem crop_height (im : Img) (l t r b : Nat) : (crop im l t r b).height = b - t :=
  rfl

theorem pyInt_eval (q : ℚ) (n : Nat) (h : Int.floor q = (n : ℤ)) : pyInt q = n := by
  unfold pyInt
  rw [h]
  exact Int.toNat_natCast n

/-- Claim C1 (amended): constructing a `Rescale` never fails — the
constructor stores the three parameters unvalidated — and the range
validation (`zoom >= 1`, both offsets in `[0, 1]`) is performed by
`rescale_image`, which fails with `ValueError` exactly on the
out-of-range parameters and succeeds past validation on every in-range
input. -/
theorem rescale_stores_unvalidated_and_rescale_image_validates
    (x y z : ℚ) (image : Img) :
    (Rescale.mk x y z).x_offset = x ∧ (Rescale.mk x y z).y_offset = y ∧
    (Rescale.mk x y z).zoom = z ∧
    ((rescale_image image (Rescale.mk x y z)).isOk ↔
      1 ≤ z ∧ 0 ≤ x ∧ x ≤ 1 ∧ 0 ≤ y ∧ y ≤ 1) := by
  refine ⟨rfl, rfl, rfl, ?_⟩
  unfold rescale_image
  by_cases h1 : z < 1
  · rw [if_pos h1]
    constructor
    · intro h
      exact Bool.noConfusion h
    · intro h
      exact absurd h1 (not_lt.mpr h.1)
  · rw [if_neg h1]
    by_cases h2 : x < 0 ∨ y < 0 ∨ x > 1 ∨ y > 1
    · rw [if_pos h2]
      constructor
      · intro h
        exact Bool.noConfusion h
      · intro h
        rcases h2 with h2 | h2 | h2 | h2
        · exact absurd h.2.1 (not_le.mpr h2)
        · exact absurd h.2.2.2.1 (not_le.mpr h2)
        · exact absurd h.2.2.1 (not_le.mpr h2)
        · exact absurd h.2.2.2.2 (not_le.mpr h2)
    · rw [if_neg h2]
      push_neg at h1 h2
      exact iff_of_true rfl ⟨h1, h2.1, h2.2.2.1, h2.2.1, h2.2.2.2⟩

/-- Claim C1 counterexample: a `Rescale` with `zoom = 1/2`, and one with
`x_offset = 3/2`, are both constructed successfully (the constructor
performs no validation and the stored fields carry the out-of-range
values); the failure only occurs later, inside `rescale_image`. -/
theorem rescale_out_of_range_construction_succeeds :
    (Rescale.mk 0 0 (1/2)).zoom = 1/2 ∧
    (Rescale.mk (3/2) 0 1).x_offset = 3/2 ∧
    (rescale_image (mkImg 1920 1080 ⟨0, 0, 0, 255⟩)
      (Rescale.mk 0 0 (1/2))).isOk = false ∧
    (rescale_image (mkImg 1920 1080 ⟨0, 0, 0, 255⟩)
      (Rescale.mk (3/2) 0 1)).isOk = false := by
  refine ⟨rfl, rfl, ?_, ?_⟩
  · unfold rescale_image
    rw [if_pos (by norm_num : ((1:ℚ)/2) < 1)]
    rfl
  · unfold rescale_image
    rw [if_neg (by norm_num : ¬((1:ℚ) < 1)),
      if_pos (Or.inr (Or.inr (Or.inl (by norm_num : (3:ℚ)/2 > 1))))]
    rfl

/-- Claim C5: for every valid rescale window (`zoom >= 1`, offsets in
`[0, 1]`) and every input frame, `rescale_image` returns an image of
exactly 1920x1080 pixels. -/
theorem rescale_image_returns_1920x1080 (image : Img) (r : Rescale)
    (hz : 1 ≤ r.zoom) (hx0 : 0 ≤ r.x_offset) (hx1 : r.x_offset ≤ 1)
    (hy0 : 0 ≤ r.y_offset) (hy1 : r.y_offset ≤ 1) :
    ∃ out, rescale_image image r = Except.ok out ∧
      out.width = 1920 ∧ out.height = 1080 := by
  unfold rescale_image
  rw [if_neg (not_lt.mpr hz),
    if_neg (by push_neg; exact ⟨hx0, hy0, hx1, hy1⟩)]
  refine ⟨_, rfl, ?_, ?_⟩
  · rw [crop_width]
    omega
  · rw [crop_height]
    omega

/-- Witness for C5 at a concrete input: a 4x4 frame with the default
window produces a 1920x1080 output. -/
theorem rescale_image_returns_1920x1080_witness :
    ((rescale_image (mkImg 4 4 ⟨0, 0, 0, 255⟩) (Rescale.mk 0 0 1)).toOption.map
      (fun out => (out.width, out.height))) = some (1920, 1080) := by
  obtain ⟨out, h1, h2, h3⟩ :=
    rescale_image_returns_1920x1080 (mkImg 4 4 ⟨0, 0, 0, 255⟩) (Rescale.mk 0 0 1)
      (le_refl 1) (le_refl 0) zero_le_one (le_refl 0) zero_le_one
  rw [h1]
  simp [Except.toOption, h2, h3]

/-- Claim C6: applying `rescale_image` with `zoom = 1`, zero offsets, to
a frame that is exactly 1920x1080 (hence already 16:9) returns the frame
unchanged: same dimensions and identical pixels everywhere in range. -/
theorem rescale_image_identity_on_1920x1080 (image : Img)
    (hw : image.width = 1920) (hh : image.height = 1080) :
    ∃ out, rescale_image image (Rescale.mk 0 0 1) = Except.ok out ∧
      out.width = 1920 ∧ out.height = 1080 ∧
      ∀ i j, i < 1920 → j < 1080 → out.pix i j = image.pix i j := by
  have h1920 : pyInt ((1920 : ℚ) * 1) = 1920 := pyInt_eval _ _ (by norm_num)
  have h1080 : pyInt ((1080 : ℚ) * 1) = 1080 := pyInt_eval _ _ (by norm_num)
  have hzz : zoomed_image image (Rescale.mk 0 0 1) = image := by
    show resize image (pyInt ((1920 : ℚ) * 1)) (pyInt ((1080 : ℚ) * 1)) = image
    rw [h1920, h1080]
    unfold resize
    rw [if_pos ⟨hw, hh⟩]
  have hx : zoomed_x_offset image (Rescale.mk 0 0 1) = 0 := by
    show pyInt ((0 : ℚ) *
      (((zoomed_image image (Rescale.mk 0 0 1)).width : ℚ) + 600 - 1920)) = 0
    rw [zero_mul]
    exact pyInt_eval _ _ (by norm_num)
  have hy : zoomed_y_offset image (Rescale.mk 0 0 1) = 0 := by
    show pyInt ((0 : ℚ) *
      (((zoomed_image image (Rescale.mk 0 0 1)).height : ℚ) - 1080)) = 0
    rw [zero_mul]
    exact pyInt_eval _ _ (by norm_num)
  have hmain : rescale_image image (Rescale.mk 0 0 1) =
      Except.ok (crop image 0 0 (1920 + 0) (1080 + 0)) := by
    unfold rescale_image
    rw [if_neg (by show ¬((1 : ℚ) < 1); norm_num),
      if_neg (by show ¬((0 : ℚ) < 0 ∨ (0 : ℚ) < 0 ∨ (0 : ℚ) > 1 ∨ (0 : ℚ) > 1)
                 norm_num),
      hzz, hx, hy]
  refine ⟨_, hmain, rfl, rfl, ?_⟩
  intro i j hi hj
  show (if 0 + i < image.width ∧ 0 + j < image.height
    then image.pix (0 + i) (0 + j) else ⟨0, 0, 0, 0⟩) = image.pix i j
  rw [if_pos ⟨by omega, by omega⟩, Nat.zero_add, Nat.zero_add]

/-- Witness for C6 at a concrete input: the identity window on a
concrete 1920x1080 frame reproduces the frame, checked at pixel
(5, 7). -/
theorem rescale_image_identity_witness :
    ((rescale_image (mkImg 1920 1080 ⟨7, 8, 9, 255⟩)
        (Rescale.mk 0 0 1)).toOption.map
      (fun out => (out.width, out.height, out.pix 5 7))) =
    some (1920, 1080, (⟨7, 8, 9, 255⟩ : RGBA)) := by
  obtain ⟨out, h1, h2, h3, h4⟩ :=
    rescale_image_identity_on_1920x1080 (mkImg 1920 1080 ⟨7, 8, 9, 255⟩) rfl rfl
  rw [h1]
  have h5 := h4 5 7 (by omega) (by omega)
  simp [Except.toOption, h2, h3, h5]
  rfl

/-- Claim C4 (amended): step 2 of `rescale_image` resizes the frame to
the fixed target `(int(1920*zoom), int(1080*zoom))` irrespective of the
input frame's dimensions (not to `(w*zoom, h*zoom)`), and step 3
computes the crop origin as `int(xOffset * (scaledWidth + 600 - 1920))`
and `int(yOffset * (scaledHeight - 1080))` where the scaled size is that
fixed target. -/
theorem zoomed_fixed_target_and_offset_formulas (image : Img) (r : Rescale) :
    (zoomed_image image r).width = pyInt (1920 * r.zoom) ∧
    (zoomed_image image r).height = pyInt (1080 * r.zoom) ∧
    zoomed_x_offset image r =
      pyInt (r.x_offset * ((pyInt (1920 * r.zoom) : ℚ) + 600 - 1920)) ∧
    zoomed_y_offset image r =
      pyInt (r.y_offset * ((pyInt (1080 * r.zoom) : ℚ) - 1080)) ∧
    ∀ other : Img, (zoomed_image other r).width = (zoomed_image image r).width ∧
      (zoomed_image other r).height = (zoomed_image image r).height := by
  refine ⟨resize_width _ _ _, resize_height _ _ _, ?_, ?_, ?_⟩
  · unfold zoomed_x_offset zoomed_image
    rw [resize_width]
  · unfold zoomed_y_offset zoomed_image
    rw [resize_height]
  · intro other
    unfold zoomed_image
    rw [resize_width, resize_width, resize_height, resize_height]
    exact ⟨rfl, rfl⟩

/-- Claim C4 counterexample: a normalized 960x540 frame at `zoom = 1` is
scaled to 1920x1080, not to `(960 * 1, 540 * 1)` — step 2 does not scale
the frame's own dimensions by `zoom`. -/
theorem zoomed_image_ignores_input_size :
    (zoomed_image (mkImg 960 540 ⟨0, 0, 0, 255⟩) (Rescale.mk 0 0 1)).width = 1920 ∧
    (zoomed_image (mkImg 960 540 ⟨0, 0, 0, 255⟩) (Rescale.mk 0 0 1)).height = 1080 ∧
    ¬((zoomed_image (mkImg 960 540 ⟨0, 0, 0, 255⟩) (Rescale.mk 0 0 1)).width =
        960 * 1 ∧
      (zoomed_image (mkImg 960 540 ⟨0, 0, 0, 255⟩) (Rescale.mk 0 0 1)).height =
        540 * 1) := by
  have hw : (zoomed_image (mkImg 960 540 ⟨0, 0, 0, 255⟩)
      (Rescale.mk 0 0 1)).width = 1920 := by
    show (resize _ (pyInt ((1920 : ℚ) * 1)) (pyInt ((1080 : ℚ) * 1))).width = 1920
    rw [resize_width]
    exact pyInt_eval _ _ (by norm_num)
  have hh : (zoomed_image (mkImg 960 540 ⟨0, 0, 0, 255⟩)
      (Rescale.mk 0 0 1)).height = 1080 := by
    show (resize _ (pyInt ((1920 : ℚ) * 1)) (pyInt ((1080 : ℚ) * 1))).height = 1080
    rw [resize_height]
    exact pyInt_eval _ _ (by norm_num)
  refine ⟨hw, hh, ?_⟩
  intro h
  rw [hw] at h
  omega

/-- A team logo record of `miniatures/models.py` (class `TeamLogo`):
only the two name fields participate in `identify_team`. -/
structure TeamLogo where
  name : String
  short_name : String
deriving DecidableEq, Repr

/-- ASCII case-folding of a character list; Django's `icontains` under
the project's database performs ASCII case-insensitive matching. -/
def lowerChars (s : List Char) : List Char :=
  s.map Char.toLower

/-- Whether `needle` occurs as a contiguous run at the head of `hay`. -/
def leadsWith : List Char → List Char → Bool
  | [], _ => true
  | _ :: _, [] => false
  | a :: as, b :: bs => a == b && leadsWith as bs

/-- Whether `needle` occurs contiguously anywhere in the second list
(SQL `LIKE` containment). -/
def occursIn (needle : List Char) : List Char → Bool
  | [] => needle.isEmpty
  | c :: t => leadsWith needle (c :: t) || occursIn needle t

/-- Django `fname__icontains=F(needle)`: case-insensitive containment of
`needle` in `hay`. -/
def icontains (hay needle : String) : Bool :=
  occursIn (lowerChars needle.data) (lowerChars hay.data)

/-- The filter of `TeamLogo.identify_team` (models.py lines 52-54):
`Q(fname__icontains=short_name) | Q(fname__icontains=name)`. -/
def matches_filename (filename : String) (t : TeamLogo) : Bool :=
  icontains filename t.short_name || icontains filename t.name

/-- The ordered queryset `request` of `identify_team` (models.py lines
52-54): the matching entries ordered ascending by `len(short_name)`.
SQL leaves the relative order of ties unspecified; a stable insertion
sort is chosen as the model (no theorem depends on the tie order). -/
def sorted_matches (filename : String) (catalog : List TeamLogo) : List TeamLogo :=
  List.insertionSort (fun a b => a.short_name.length ≤ b.short_name.length)
    (catalog.filter (fun t => matches_filename filename t))

/-- `TeamLogo.identify_team` (models.py lines 44-56).  The catalog list
models `cls.objects` in primary-key order, so `objects.first()` is the
head (`none` on an empty catalog).  The source builds
`teams = [first, first, *request[:2]]` and returns
`(teams[-1], teams[-2])`. -/
def identify_team (filename : String) (catalog : List TeamLogo) :
    Option TeamLogo × Option TeamLogo :=
  let teams : List (Option TeamLogo) :=
    [catalog.head?, catalog.head?] ++
      ((sorted_matches filename catalog).take 2).map some
  (teams.getD (teams.length - 1) none, teams.getD (teams.length - 2) none)

/-- Claim C2: for every candidate text and non-empty catalog,
`identify_team` filters the catalog to the entries whose `short_name` or
`name` is contained in the text (the containment used by the source),
orders them ascending by `len(short_name)`, and returns the top two as
`(secondBest, best)` with the best match in the last slot; with zero
matches it returns two copies of the catalog's first entry. -/
theorem identify_team_filters_sorts_and_pairs
    (filename : String) (catalog : List TeamLogo) (hcat : catalog ≠ []) :
    (∀ t : TeamLogo, t ∈ sorted_matches filename catalog ↔
      t ∈ catalog ∧ matches_filename filename t = true) ∧
    (sorted_matches filename catalog).Sorted
      (fun a b => a.short_name.length ≤ b.short_name.length) ∧
    (∀ s1 s2 rest, sorted_matches filename catalog = s1 :: s2 :: rest →
      identify_team filename catalog = (some s2, some s1)) ∧
    (sorted_matches filename catalog = [] →
      identify_team filename catalog =
        (some (catalog.head hcat), some (catalog.head hcat))) := by
  obtain ⟨a, l', rfl⟩ := List.exists_cons_of_ne_nil hcat
  refine ⟨?_, ?_, ?_, ?_⟩
  · intro t
    unfold sorted_matches
    rw [(List.perm_insertionSort _ _).mem_iff, List.mem_filter]
  · haveI : IsTotal TeamLogo
        (fun a b => a.short_name.length ≤ b.short_name.length) :=
      ⟨fun a b => Nat.le_total _ _⟩
    haveI : IsTrans TeamLogo
        (fun a b => a.short_name.length ≤ b.short_name.length) :=
      ⟨fun _ _ _ hab hbc => le_trans hab hbc⟩
    exact List.sorted_insertionSort _ _
  · intro s1 s2 rest h
    unfold identify_team
    rw [h]
    rfl
  · intro h
    unfold identify_team
    rw [h]
    rfl

/-- Witness for C2 at a concrete input: the catalog holds a default
entry and the teams RedDragons and BlueWolves; both team names match the
filename, the sorted match list is `[RedDragons, BlueWolves]`, and the
returned pair carries the best match (RedDragons) in the last slot. -/
theorem identify_team_filters_sorts_and_pairs_witness :
    ([⟨"Default", "df"⟩, ⟨"RedDragons", "RD"⟩, ⟨"BlueWolves", "BW"⟩] :
      List TeamLogo) ≠ [] ∧
    identify_team "VID_RedDragons_vs_BlueWolves.mp4"
      [⟨"Default", "df"⟩, ⟨"RedDragons", "RD"⟩, ⟨"BlueWolves", "BW"⟩] =
      (some ⟨"BlueWolves", "BW"⟩, some ⟨"RedDragons", "RD"⟩) :=
  ⟨by decide,
    (identify_team_filters_sorts_and_pairs "VID_RedDragons_vs_BlueWolves.mp4"
      [⟨"Default", "df"⟩, ⟨"RedDragons", "RD"⟩, ⟨"BlueWolves", "BW"⟩]
      (by decide)).2.2.1
      ⟨"RedDragons", "RD"⟩ ⟨"BlueWolves", "BW"⟩ [] (by decide)⟩

/-- Claim C10: when exactly one catalog entry matches the candidate
text, `identify_team` returns `(theMatch, firstCatalogEntry)`: the
single real match in the first returned slot and the catalog's first
(default) entry in the last, best-match slot. -/
theorem identify_team_single_match (filename : String)
    (catalog : List TeamLogo) (hcat : catalog ≠ []) (m : TeamLogo)
    (hm : sorted_matches filename catalog = [m]) :
    identify_team filename catalog = (some m, some (catalog.head hcat)) := by
  obtain ⟨a, l', rfl⟩ := List.exists_cons_of_ne_nil hcat
  unfold identify_team
  rw [hm]
  rfl

/-- Witness for C10 at a concrete input: only RedDragons matches the
filename; it lands in the first slot and the default entry in the
last. -/
theorem identify_team_single_match_witness :
    sorted_matches "VID_RedDragons.mp4"
      [⟨"Default", "df"⟩, ⟨"RedDragons", "RD"⟩] = [⟨"RedDragons", "RD"⟩] ∧
    identify_team "VID_RedDragons.mp4"
      [⟨"Default", "df"⟩, ⟨"RedDragons", "RD"⟩] =
      (some ⟨"RedDragons", "RD"⟩, some ⟨"Default", "df"⟩) :=
  ⟨by decide,
    identify_team_single_match "VID_RedDragons.mp4"
      [⟨"Default", "df"⟩, ⟨"RedDragons", "RD"⟩] (by decide)
      ⟨"RedDragons", "RD"⟩ (by decide)⟩

/-- Claim C3 (amended): the containment test of `identify_team` is
case-insensitive (Django `icontains`): a catalog entry whose `name`
occurs in the candidate text after ASCII case-folding is counted as a
match, even when the name occurs only with differing letter case. -/
theorem matching_is_case_insensitive (filename : String)
    (catalog : List TeamLogo) (t : TeamLogo) (ht : t ∈ catalog)
    (h : occursIn (lowerChars t.name.data) (lowerChars filename.data) = true) :
    t ∈ sorted_matches filename catalog := by
  have hmatch : matches_filename filename t = true := by
    unfold matches_filename icontains
    rw [h]
    exact Bool.or_true _
  unfold sorted_matches
  exact (List.perm_insertionSort _ _).mem_iff.mpr
    (List.mem_filter.mpr ⟨ht, hmatch⟩)

/-- Witness for the amended C3 at a concrete input: "Dragons" occurs in
"VID_DRAGONS.MP4" only after case-folding, and the entry is counted. -/
theorem matching_is_case_insensitive_witness :
    (⟨"Dragons", "xq"⟩ : TeamLogo) ∈
      sorted_matches "VID_DRAGONS.MP4"
        [⟨"Default", "zq"⟩, ⟨"Dragons", "xq"⟩] :=
  matching_is_case_insensitive "VID_DRAGONS.MP4"
    [⟨"Default", "zq"⟩, ⟨"Dragons", "xq"⟩] ⟨"Dragons", "xq"⟩
    (by decide) (by decide)

/-- Claim C3 counterexample: the entry named "Dragons" occurs in
"VID_DRAGONS.MP4" only with differing letter case (no case-sensitive
occurrence), yet `identify_team` counts it as a match and returns it —
the containment test is not case-sensitive. -/
theorem case_differing_name_still_matches :
    occursIn "Dragons".data "VID_DRAGONS.MP4".data = false ∧
    matches_filename "VID_DRAGONS.MP4" ⟨"Dragons", "xq"⟩ = true ∧
    identify_team "VID_DRAGONS.MP4"
      [⟨"Default", "zq"⟩, ⟨"Dragons", "xq"⟩] =
      (some ⟨"Dragons", "xq"⟩, some ⟨"Default", "zq"⟩) := by
  refine ⟨by decide, by decide, by decide⟩

/-- The half-scale copy `rescaled_image` of `paste_image_with_shadow`
(build_miniature.py line 109): `image.resize((int(x*0.5), int(y*0.5)))`. -/
def half_scale (image : Img) : Img :=
  resize image (image.width / 2) (image.height / 2)

/-- The `new_center` of `paste_image_with_shadow` (lines 111-114):
`(x // 2 - rescaled.width // 2, y // 2 - rescaled.height // 2)`;
non-negative because the half-scale copy is no larger than the source. -/
def new_center (image : Img) : Nat × Nat :=
  (image.width / 2 - (half_scale image).width / 2,
    image.height / 2 - (half_scale image).height / 2)

/-- The shadow layer `shadow_logo` of `paste_image_with_shadow` (lines
110-116): an opaque black canvas the size of the source, onto which the
half-scale copy of the source itself is pasted at the center through its
own alpha band. -/
def shadow_logo (image : Img) : Img :=
  pasteMask (mkImg image.width image.height ⟨0, 0, 0, 255⟩) (half_scale image)
    ((new_center image).1 : Int) ((new_center image).2 : Int)
    (alphaBand (half_scale image))

/-- The blurred-then-restamped mask `mask_blur` of
`paste_image_with_shadow` (lines 118-124): the half-scale alpha stamped
on a black single-band canvas, Gaussian-blurred, then the unblurred
alpha restamped at the same centered position through itself. -/
def shadow_mask (image : Img) (shade : ℚ) : GImg :=
  pasteGMask
    (gaussianBlur
      (pasteG (mkGImg image.width image.height 0) (alphaBand (half_scale image))
        ((new_center image).1 : Int) ((new_center image).2 : Int))
      shade)
    (alphaBand (half_scale image))
    ((new_center image).1 : Int) ((new_center image).2 : Int)
    (alphaBand (half_scale image))

/-- `paste_image_with_shadow` (lines 94-126): pastes the shadow layer
onto the background through the blurred+restamped mask.  This is the
only paste the function performs: the source image itself is never
pasted again, neither here nor by the callers. -/
def paste_image_with_shadow (background_image image : Img) (pos : Int × Int)
    (shade : ℚ) : Img :=
  pasteMask background_image (shadow_logo image) pos.1 pos.2
    (shadow_mask image shade)

theorem muldiv255_right_zero (x : Nat) : muldiv255 x 0 = 0 := by
  unfold muldiv255
  omega

theorem muldiv255_right_full (x : Nat) (h : x ≤ 255) : muldiv255 x 255 = x := by
  unfold muldiv255
  omega

theorem blendChan_full (d s : Nat) (h : s ≤ 255) : blendChan 255 d s = s := by
  unfold blendChan
  rw [show 255 - 255 = 0 from rfl, muldiv255_right_zero, muldiv255_right_full s h]
  omega

theorem blendChan_zero (d s : Nat) (h : d ≤ 255) : blendChan 0 d s = d := by
  unfold blendChan
  rw [show 255 - 0 = 255 from rfl, muldiv255_right_zero, muldiv255_right_full d h]
  omega

theorem blendRGBA_full (d s : RGBA) (h : s.r ≤ 255 ∧ s.g ≤ 255 ∧ s.b ≤ 255 ∧
    s.a ≤ 255) : blendRGBA 255 d s = s := by
  cases s
  unfold blendRGBA
  simp only [RGBA.mk.injEq]
  exact ⟨blendChan_full _ _ h.1, blendChan_full _ _ h.2.1,
    blendChan_full _ _ h.2.2.1, blendChan_full _ _ h.2.2.2⟩

theorem blendRGBA_zero_on_black (s : RGBA) :
    blendRGBA 0 ⟨0, 0, 0, 255⟩ s = ⟨0, 0, 0, 255⟩ := by
  unfold blendRGBA
  simp only [RGBA.mk.injEq]
  exact ⟨blendChan_zero _ _ (by omega), blendChan_zero _ _ (by omega),
    blendChan_zero _ _ (by omega), blendChan_zero _ _ (by omega)⟩

theorem half_scale_pix_bounded (image : Img)
    (hwf : ∀ i j : Nat, (image.pix i j).r ≤ 255 ∧ (image.pix i j).g ≤ 255 ∧
      (image.pix i j).b ≤ 255 ∧ (image.pix i j).a ≤ 255) (i j : Nat) :
    ((half_scale image).pix i j).r ≤ 255 ∧ ((half_scale image).pix i j).g ≤ 255 ∧
    ((half_scale image).pix i j).b ≤ 255 ∧ ((half_scale image).pix i j).a ≤ 255 := by
  unfold half_scale resize
  split
  · exact hwf i j
  · exact hwf _ _

/-- Claim C7 (amended): the shadow layer built by
`paste_image_with_shadow` is the opaque black canvas of the source's
size with the half-scale source image itself pasted at the center
through its own alpha band: inside the centered half-scale region a
fully opaque source pixel keeps its own colour (it is not rendered
black), a fully transparent one leaves opaque black, and every pixel
outside the region is opaque black.  The destination receives this layer
via the single masked paste of the function; no separate paste of the
source image follows. -/
theorem shadow_logo_characterization (image : Img)
    (hwf : ∀ i j : Nat, (image.pix i j).r ≤ 255 ∧ (image.pix i j).g ≤ 255 ∧
      (image.pix i j).b ≤ 255 ∧ (image.pix i j).a ≤ 255) (i j : Nat) :
    (shadow_logo image).width = image.width ∧
    (shadow_logo image).height = image.height ∧
    (∀ (h1 : (new_center image).1 ≤ i)
       (h2 : i < (new_center image).1 + (half_scale image).width)
       (h3 : (new_center image).2 ≤ j)
       (h4 : j < (new_center image).2 + (half_scale image).height),
      (((half_scale image).pix (i - (new_center image).1)
          (j - (new_center image).2)).a = 255 →
        (shadow_logo image).pix i j =
          (half_scale image).pix (i - (new_center image).1)
            (j - (new_center image).2)) ∧
      (((half_scale image).pix (i - (new_center image).1)
          (j - (new_center image).2)).a = 0 →
        (shadow_logo image).pix i j = ⟨0, 0, 0, 255⟩)) ∧
    ((i < (new_center image).1 ∨
      (new_center image).1 + (half_scale image).width ≤ i ∨
      j < (new_center image).2 ∨
      (new_center image).2 + (half_scale image).height ≤ j) →
      (shadow_logo image).pix i j = ⟨0, 0, 0, 255⟩) := by
  refine ⟨rfl, rfl, ?_, ?_⟩
  · intro h1 h2 h3 h4
    have hcond : 0 ≤ (i : Int) - ((new_center image).1 : Int) ∧
        (i : Int) - ((new_center image).1 : Int) <
          ((half_scale image).width : Int) ∧
        0 ≤ (j : Int) - ((new_center image).2 : Int) ∧
        (j : Int) - ((new_center image).2 : Int) <
          ((half_scale image).height : Int) := by
      refine ⟨by omega, by omega, by omega, by omega⟩
    have hti : ((i : Int) - ((new_center image).1 : Int)).toNat =
        i - (new_center image).1 := by omega
    have htj : ((j : Int) - ((new_center image).2 : Int)).toNat =
        j - (new_center image).2 := by omega
    constructor
    · intro ha
      show (if 0 ≤ (i : Int) - ((new_center image).1 : Int) ∧
          (i : Int) - ((new_center image).1 : Int) <
            ((half_scale image).width : Int) ∧
          0 ≤ (j : Int) - ((new_center image).2 : Int) ∧
          (j : Int) - ((new_center image).2 : Int) <
            ((half_scale image).height : Int) then
          blendRGBA
            ((alphaBand (half_scale image)).pix
              (((i : Int) - ((new_center image).1 : Int)).toNat)
              (((j : Int) - ((new_center image).2 : Int)).toNat))
            ((mkImg image.width image.height ⟨0, 0, 0, 255⟩).pix i j)
            ((half_scale image).pix
              (((i : Int) - ((new_center image).1 : Int)).toNat)
              (((j : Int) - ((new_center image).2 : Int)).toNat))
        else (mkImg image.width image.height ⟨0, 0, 0, 255⟩).pix i j) =
        (half_scale image).pix (i - (new_center image).1)
          (j - (new_center image).2)
      rw [if_pos hcond, hti, htj]
      show blendRGBA ((half_scale image).pix (i - (new_center image).1)
          (j - (new_center image).2)).a _ _ = _
      rw [ha]
      exact blendRGBA_full _ _ (half_scale_pix_bounded image hwf _ _)
    · intro ha
      show (if 0 ≤ (i : Int) - ((new_center image).1 : Int) ∧
          (i : Int) - ((new_center image).1 : Int) <
            ((half_scale image).width : Int) ∧
          0 ≤ (j : Int) - ((new_center image).2 : Int) ∧
          (j : Int) - ((new_center image).2 : Int) <
            ((half_scale image).height : Int) then
          blendRGBA
            ((alphaBand (half_scale image)).pix
              (((i : Int) - ((new_center image).1 : Int)).toNat)
              (((j : Int) - ((new_center image).2 : Int)).toNat))
            ((mkImg image.width image.height ⟨0, 0, 0, 255⟩).pix i j)
            ((half_scale image).pix
              (((i : Int) - ((new_center image).1 : Int)).toNat)
              (((j : Int) - ((new_center image).2 : Int)).toNat))
        else (mkImg image.width image.height ⟨0, 0, 0, 255⟩).pix i j) =
        (⟨0, 0, 0, 255⟩ : RGBA)
      rw [if_pos hcond, hti, htj]
      show blendRGBA ((half_scale image).pix (i - (new_center image).1)
          (j - (new_center image).2)).a (⟨0, 0, 0, 255⟩ : RGBA) _ = _
      rw [ha]
      exact blendRGBA_zero_on_black _
  · intro hout
    show (if 0 ≤ (i : Int) - ((new_center image).1 : Int) ∧
        (i : Int) - ((new_center image).1 : Int) <
          ((half_scale image).width : Int) ∧
        0 ≤ (j : Int) - ((new_center image).2 : Int) ∧
        (j : Int) - ((new_center image).2 : Int) <
          ((half_scale image).height : Int) then
        blendRGBA
          ((alphaBand (half_scale image)).pix
            (((i : Int) - ((new_center image).1 : Int)).toNat)
            (((j : Int) - ((new_center image).2 : Int)).toNat))
          ((mkImg image.width image.height ⟨0, 0, 0, 255⟩).pix i j)
          ((half_scale image).pix
            (((i : Int) - ((new_center image).1 : Int)).toNat)
            (((j : Int) - ((new_center image).2 : Int)).toNat))
      else (mkImg image.width image.height ⟨0, 0, 0, 255⟩).pix i j) =
      (⟨0, 0, 0, 255⟩ : RGBA)
    rw [if_neg (by omega)]
    rfl

/-- Witness for the amended C7 at a concrete input: on a uniform opaque
red 4x4 source, the centered pixel (1, 1) of the shadow layer carries
the red of the half-scale source, and the corner pixel (0, 0), outside
the centered region, is opaque black. -/
theorem shadow_logo_characterization_witness :
    (shadow_logo (mkImg 4 4 ⟨255, 0, 0, 255⟩)).pix 1 1 =
      (⟨255, 0, 0, 255⟩ : RGBA) ∧
    (shadow_logo (mkImg 4 4 ⟨255, 0, 0, 255⟩)).pix 0 0 =
      (⟨0, 0, 0, 255⟩ : RGBA) := by
  have h1 := (shadow_logo_characterization (mkImg 4 4 ⟨255, 0, 0, 255⟩)
    (fun _ _ => ⟨Nat.le_refl 255, Nat.zero_le 255, Nat.zero_le 255,
      Nat.le_refl 255⟩) 1 1).2.2.1 (by decide) (by decide) (by decide)
    (by decide)
  have h2 := (shadow_logo_characterization (mkImg 4 4 ⟨255, 0, 0, 255⟩)
    (fun _ _ => ⟨Nat.le_refl 255, Nat.zero_le 255, Nat.zero_le 255,
      Nat.le_refl 255⟩) 0 0).2.2.2 (Or.inl (by decide))
  exact ⟨(h1.1 (by decide)).trans (by decide), h2⟩

/-- Claim C7 counterexample: on a uniform opaque red 4x4 source the
shadow layer's centered pixel (1, 1) is the source's own red, not solid
black — the half-scale copy is pasted with its colours, not rendered as
a black silhouette. -/
theorem shadow_layer_not_black_silhouette :
    (shadow_logo (mkImg 4 4 ⟨255, 0, 0, 255⟩)).pix 1 1 =
      (⟨255, 0, 0, 255⟩ : RGBA) ∧
    ((shadow_logo (mkImg 4 4 ⟨255, 0, 0, 255⟩)).pix 1 1).r ≠ 0 := by
  refine ⟨by decide, by decide⟩

/-- The darkening wash of `assemble_miniature` (build_miniature.py lines
245-249): `alpha_mask = Image.new("RGBA", image.size, 0)` — sized as the
aspect-cropped input frame, not as the canvas — then a rectangle from
(0, 0) to (1920, 1080) of colour (0, 0, 0, 40) is drawn on it, and it is
pasted onto the 1920x1080 miniature canvas at (0, 0) through its own
alpha band. -/
def wash_stage (image canvas : Img) : Img :=
  pasteMask canvas
    (drawRect (mkImg image.width image.height ⟨0, 0, 0, 0⟩) 0 0 1920 1080
      ⟨0, 0, 0, 40⟩)
    0 0
    (alphaBand
      (drawRect (mkImg image.width image.height ⟨0, 0, 0, 0⟩) 0 0 1920 1080
        ⟨0, 0, 0, 40⟩))

/-- Claim C8 (amended): the alpha-40 black wash reaches exactly the
intersection of the canvas with the frame's extent: a canvas pixel
(i, j), i < 1920, j < 1080, is blended with the wash when i and j fall
inside the (aspect-cropped) frame's size and is left unchanged
otherwise.  Only for frames at least as large as the canvas is the whole
1920x1080 canvas darkened. -/
theorem wash_covers_frame_extent_only (image canvas : Img) (i j : Nat)
    (hi : i < 1920) (hj : j < 1080) :
    (wash_stage image canvas).pix i j =
      if i < image.width ∧ j < image.height then
        blendRGBA 40 (canvas.pix i j) ⟨0, 0, 0, 40⟩
      else canvas.pix i j := by
  by_cases hin : i < image.width ∧ j < image.height
  · rw [if_pos hin]
    show (if 0 ≤ (i : Int) - 0 ∧ (i : Int) - 0 < (image.width : Int) ∧
        0 ≤ (j : Int) - 0 ∧ (j : Int) - 0 < (image.height : Int) then
        blendRGBA
          ((alphaBand (drawRect (mkImg image.width image.height ⟨0, 0, 0, 0⟩)
            0 0 1920 1080 ⟨0, 0, 0, 40⟩)).pix ((i : Int) - 0).toNat
            ((j : Int) - 0).toNat)
          (canvas.pix i j)
          ((drawRect (mkImg image.width image.height ⟨0, 0, 0, 0⟩)
            0 0 1920 1080 ⟨0, 0, 0, 40⟩).pix ((i : Int) - 0).toNat
            ((j : Int) - 0).toNat)
      else canvas.pix i j) =
      blendRGBA 40 (canvas.pix i j) ⟨0, 0, 0, 40⟩
    rw [if_pos (by omega)]
    have hij : ((i : Int) - 0).toNat = i ∧ ((j : Int) - 0).toNat = j := by omega
    rw [hij.1, hij.2]
    show blendRGBA
        ((if (0 : Int) ≤ (i : Int) ∧ (i : Int) ≤ 1920 ∧ (0 : Int) ≤ (j : Int) ∧
            (j : Int) ≤ 1080 then (⟨0, 0, 0, 40⟩ : RGBA)
          else (⟨0, 0, 0, 0⟩ : RGBA)).a)
        (canvas.pix i j)
        (if (0 : Int) ≤ (i : Int) ∧ (i : Int) ≤ 1920 ∧ (0 : Int) ≤ (j : Int) ∧
            (j : Int) ≤ 1080 then (⟨0, 0, 0, 40⟩ : RGBA)
          else (⟨0, 0, 0, 0⟩ : RGBA)) =
      blendRGBA 40 (canvas.pix i j) ⟨0, 0, 0, 40⟩
    rw [if_pos (by omega)]
  · rw [if_neg hin]
    show (if 0 ≤ (i : Int) - 0 ∧ (i : Int) - 0 < (image.width : Int) ∧
        0 ≤ (j : Int) - 0 ∧ (j : Int) - 0 < (image.height : Int) then
        blendRGBA
          ((alphaBand (drawRect (mkImg image.width image.height ⟨0, 0, 0, 0⟩)
            0 0 1920 1080 ⟨0, 0, 0, 40⟩)).pix ((i : Int) - 0).toNat
            ((j : Int) - 0).toNat)
          (canvas.pix i j)
          ((drawRect (mkImg image.width image.height ⟨0, 0, 0, 0⟩)
            0 0 1920 1080 ⟨0, 0, 0, 40⟩).pix ((i : Int) - 0).toNat
            ((j : Int) - 0).toNat)
      else canvas.pix i j) = canvas.pix i j
    rw [if_neg (by omega)]

/-- Witness for the amended C8 at a concrete input: with a 1280x720
frame (16:9, unchanged by aspect normalization) on a uniform light
canvas, pixel (100, 100) inside the frame extent is darkened by the
alpha-40 wash while pixel (1900, 100) of the canvas is untouched. -/
theorem wash_covers_frame_extent_only_witness :
    (wash_stage (mkImg 1280 720 ⟨0, 0, 0, 255⟩)
      (mkImg 1920 1080 ⟨250, 250, 250, 255⟩)).pix 100 100 =
      (⟨211, 211, 211, 221⟩ : RGBA) ∧
    (wash_stage (mkImg 1280 720 ⟨0, 0, 0, 255⟩)
      (mkImg 1920 1080 ⟨250, 250, 250, 255⟩)).pix 1900 100 =
      (⟨250, 250, 250, 255⟩ : RGBA) := by
  have h1 := wash_covers_frame_extent_only (mkImg 1280 720 ⟨0, 0, 0, 255⟩)
    (mkImg 1920 1080 ⟨250, 250, 250, 255⟩) 100 100 (by decide) (by decide)
  have h2 := wash_covers_frame_extent_only (mkImg 1280 720 ⟨0, 0, 0, 255⟩)
    (mkImg 1920 1080 ⟨250, 250, 250, 255⟩) 1900 100 (by decide) (by decide)
  rw [if_pos (by decide)] at h1
  rw [if_neg (by decide)] at h2
  exact ⟨h1.trans (by decide), h2⟩

/-- Claim C8 counterexample: with a 1280x720 input frame — a size the
aspect normalization leaves unchanged — the canvas pixel (1900, 100) is
not darkened by the wash: it keeps its original value, which differs
from the alpha-40 blend the claim prescribes for every canvas pixel. -/
theorem wash_misses_canvas_pixels :
    (wash_stage (mkImg 1280 720 ⟨0, 0, 0, 255⟩)
      (mkImg 1920 1080 ⟨250, 250, 250, 255⟩)).pix 1900 100 =
      (⟨250, 250, 250, 255⟩ : RGBA) ∧
    blendRGBA 40 (⟨250, 250, 250, 255⟩ : RGBA) ⟨0, 0, 0, 40⟩ ≠
      (⟨250, 250, 250, 255⟩ : RGBA) ∧
    (wash_stage (mkImg 1280 720 ⟨0, 0, 0, 255⟩)
      (mkImg 1920 1080 ⟨250, 250, 250, 255⟩)).pix 1900 100 ≠
      blendRGBA 40
        ((mkImg 1920 1080 ⟨250, 250, 250, 255⟩).pix 1900 100) ⟨0, 0, 0, 40⟩ := by
  refine ⟨by decide, by decide, by decide⟩

/-- `rescale_logo` (build_miniature.py lines 76-91): resize to width 850
preserving aspect ratio; if the resulting height exceeds 850, re-resize
by height to 850 preserving aspect ratio (two-pass fit-within-box). -/
def rescale_logo (logo : Img) : Img :=
  if (resize logo 850 (850 * logo.height / logo.width)).height > 850 then
    resize (resize logo 850 (850 * logo.height / logo.width))
      (850 * (resize logo 850 (850 * logo.height / logo.width)).width /
        (resize logo 850 (850 * logo.height / logo.width)).height)
      850
  else resize logo 850 (850 * logo.height / logo.width)

/-- The local `recenter` of `build_team_overlay` (lines 147-148):
shift a target anchor by the half-size of the image, so the anchor
becomes the image's visual center. -/
def recenter (img : Img) (pos : Int × Int) : Int × Int :=
  (pos.1 - (img.width / 2 : Nat), pos.2 - (img.height / 2 : Nat))

/-- `build_team_overlay` (lines 129-177) for a string background colour
(the only supported form; any other raises `NotImplementedError`): the
rotated colour panel pasted at (-1100, -300) on a transparent 1920x1080
canvas, then each rescaled logo pasted with its shadow at the fixed
anchors (300, 1080/4) and (450, 3*1080/4). -/
def build_team_overlay (logo1_rescaled logo2_rescaled : Img)
    (background : String) : Img :=
  paste_image_with_shadow
    (paste_image_with_shadow
      (pasteImg (mkImg 1920 1080 ⟨250, 250, 250, 0⟩)
        (rotateExpand
          (drawRect (mkImg 1700 1500 ⟨0, 0, 0, 0⟩) 0 (-100) (1000 + 1700)
            (101 + 1500) (namedColor background))
          10)
        (-1100) (-300))
      (rescale_logo logo1_rescaled)
      (recenter (rescale_logo logo1_rescaled) (300, 1080 / 4)) 10)
    (rescale_logo logo2_rescaled)
    (recenter (rescale_logo logo2_rescaled) (450, 3 * 1080 / 4)) 10

theorem rescale_logo_fits (logo : Img) :
    (rescale_logo logo).width ≤ 850 ∧ (rescale_logo logo).height ≤ 850 := by
  unfold rescale_logo
  by_cases hc : (resize logo 850 (850 * logo.height / logo.width)).height > 850
  · rw [if_pos hc]
    refine ⟨?_, ?_⟩
    · rw [resize_width]
      rw [resize_width, resize_height]
      rw [resize_height] at hc
      have h851 : 851 ≤ 850 * logo.height / logo.width := hc
      calc 850 * 850 / (850 * logo.height / logo.width) ≤ 850 * 850 / 851 :=
            Nat.div_le_div_left h851 (by omega)
        _ ≤ 850 := by decide
    · rw [resize_height]
  · rw [if_neg hc]
    refine ⟨?_, ?_⟩
    · rw [resize_width]
    · rw [resize_height]
      rw [resize_height] at hc
      omega

/-- Claim C9: for every pair of input emblem images (with positive
width, as every real raster has), `build_team_overlay` returns an image
of exactly 1920x1080, and each emblem is rescaled by the two-pass
fit-within-box of `rescale_logo` so that it fits within an 850x850
box. -/
theorem build_team_overlay_size_and_fit (logo1 logo2 : Img) (bg : String)
    (h1 : 0 < logo1.width) (h2 : 0 < logo2.width) :
    (build_team_overlay logo1 logo2 bg).width = 1920 ∧
    (build_team_overlay logo1 logo2 bg).height = 1080 ∧
    (rescale_logo logo1).width ≤ 850 ∧ (rescale_logo logo1).height ≤ 850 ∧
    (rescale_logo logo2).width ≤ 850 ∧ (rescale_logo logo2).height ≤ 850 := by
  obtain ⟨ha1, ha2⟩ := rescale_logo_fits logo1
  obtain ⟨hb1, hb2⟩ := rescale_logo_fits logo2
  exact ⟨rfl, rfl, ha1, ha2, hb1, hb2⟩

/-- Witness for C9 at concrete inputs: a 4000x100 emblem and a 100x4000
emblem; the overlay is 1920x1080 and both rescaled emblems fit within
850x850 (the wide one becomes 850x21, the tall one 21x850). -/
theorem build_team_overlay_size_and_fit_witness :
    (build_team_overlay (mkImg 4000 100 ⟨1, 2, 3, 255⟩)
      (mkImg 100 4000 ⟨4, 5, 6, 255⟩) "red").width = 1920 ∧
    (build_team_overlay (mkImg 4000 100 ⟨1, 2, 3, 255⟩)
      (mkImg 100 4000 ⟨4, 5, 6, 255⟩) "red").height = 1080 ∧
    (rescale_logo (mkImg 4000 100 ⟨1, 2, 3, 255⟩)).width ≤ 850 ∧
    (rescale_logo (mkImg 4000 100 ⟨1, 2, 3, 255⟩)).height ≤ 850 ∧
    (rescale_logo (mkImg 100 4000 ⟨4, 5, 6, 255⟩)).width ≤ 850 ∧
    (rescale_logo (mkImg 100 4000 ⟨4, 5, 6, 255⟩)).height ≤ 850 :=
  build_team_overlay_size_and_fit (mkImg 4000 100 ⟨1, 2, 3, 255⟩)
    (mkImg 100 4000 ⟨4, 5, 6, 255⟩) "red" (by decide) (by decide)
